import Mathlib

/-!
Verification of the chat-ingestion and presence-tracking core of the
Streamer-Insight application (src/main.py) against its natural-language
specification.  The Python code is shallowly embedded: each relevant
function or loop body becomes an executable Lean definition over explicit
state, and the spec's claims become theorems about those definitions.

Embedded code:
* IRC reconnection backoff            (`_irc_connect_loop`, lines 2824–2929)
* IRC read loop / keep-alive          (`_irc_connect_loop`, lines 2880–2903)
* IRC line processing                 (`_process_irc_line`, lines 2931–2956)
* YouTube poll loop and watcher       (`_poll_yt_chat`, `_start_yt_watcher`,
                                       `_stop_yt_chat`, lines 4007–4165)
* Lurker / presence refresh           (`_do_lurker_refresh`, lines 2628–2689,
                                       `play_lurk_notify`, lines 667–671)
* Emote-descriptor parsing            (`_handle_privmsg`, lines 3002–3015)
* Send anti-bounce guard              (`_send_chat_message`, lines 3792–3798)

The file is organised as all definitions first, then all theorems.
-/

/- ### String helpers shared by the embeddings -/

/-- Substring test on character lists: `hasSub hay pat` is true iff `pat` occurs as a
contiguous run inside `hay`.  Used to embed Python's `pat in hay` on strings. -/
def hasSub (hay pat : List Char) : Bool :=
  match hay with
  | [] => pat.isEmpty
  | _ :: t => pat.isPrefixOf hay || hasSub t pat

/-- Embedding of Python's `pat in hay` membership test on strings. -/
def pyContains (hay pat : String) : Bool := hasSub hay.data pat.data

/-- Embedding of Python's `k in d` membership test on a dict keyed by strings
(the dict modelled by its key list). -/
def pyIn (k : String) : List String → Bool
  | [] => false
  | x :: rest => k == x || pyIn k rest

/-- Embedding of Python's `hay.startswith(pat)`. -/
def pyStartsWith (hay pat : String) : Bool := pat.data.isPrefixOf hay.data

/-- Embedding of Python's `s.lower()` (ASCII case fold, which is all the error strings
classified by the poll loop use). -/
def pyLower (s : String) : String := String.mk (s.data.map Char.toLower)

/-- Embedding of Python's `s.upper()` on ASCII strings. -/
def pyUpper (s : String) : String := String.mk (s.data.map Char.toUpper)

/- ### IRC reconnection backoff (`_irc_connect_loop`) -/

/-- Outcome of one iteration of the `while not g["tw_stop_event"].is_set()` loop in
`_irc_connect_loop`: either the TLS connect and IRC handshake succeed (after which the
read loop runs until the connection drops) or the attempt raises an exception before the
backoff reset on line 2864.  In both cases control falls through to the backoff section
(lines 2919–2926), which waits the current backoff and then doubles it. -/
inductive ConnectOutcome
  | success
  | failure
deriving DecidableEq

/-- Backoff update at the end of a loop iteration (line 2926):
`g["tw_backoff"] = min(backoff * 2, 60)` — double, capped at 60 seconds. -/
def backoffDouble (b : Nat) : Nat := min (b * 2) 60

/-- Value of `g["tw_backoff"]` right after the attempt phase of an iteration:
reset to 2 on a successful connect (line 2864); unchanged on a failed attempt. -/
def backoffAfterAttempt (b : Nat) : ConnectOutcome → Nat
  | ConnectOutcome.success => 2
  | ConnectOutcome.failure => b

/-- One full iteration of the persistent connect loop: the attempt phase runs, then the
loop waits `g["tw_backoff"]` seconds (line 2925) and doubles it (line 2926).
Returns the wait performed and the backoff carried into the next iteration. -/
def ircLoopIter (b : Nat) (o : ConnectOutcome) : Nat × Nat :=
  let b1 := backoffAfterAttempt b o
  (b1, backoffDouble b1)

/-- The sequence of waits performed by successive loop iterations over a trace of
connect outcomes, starting from backoff `b`. -/
def ircWaits (b : Nat) : List ConnectOutcome → List Nat
  | [] => []
  | o :: rest =>
      let p := ircLoopIter b o
      p.1 :: ircWaits p.2 rest

/- ### IRC read loop and keep-alive (`_irc_connect_loop`, lines 2880–2903) -/

/-- One event observed by the inner read loop: a successful `recv` with data, an empty
`recv` (peer closed), a `socket.timeout` (with the subsequent keep-alive PING write
succeeding or failing), or any other I/O exception. -/
inductive ReadEvent
  | data
  | eof
  | timeout (pingWriteOk : Bool)
  | ioError
deriving DecidableEq

/-- Protocol action performed by a read-loop iteration. -/
inductive ReadIterAction
  | ping
deriving DecidableEq

/-- One iteration of the read loop (lines 2883–2903): returns whether the loop breaks
out (the connection is treated as lost) and the keep-alive action performed.  A timeout
sends `PING :tmi.twitch.tv` and continues (lines 2893–2898) unless that write itself
raises; an empty recv (lines 2885–2887) or any other exception (lines 2899–2903)
breaks. -/
def readLoopIter : ReadEvent → Bool × Option ReadIterAction
  | ReadEvent.data => (false, none)
  | ReadEvent.eof => (true, none)
  | ReadEvent.timeout ok => if ok then (false, some ReadIterAction.ping) else (true, none)
  | ReadEvent.ioError => (true, none)

/-- Running the read loop over a sequence of events: `true` iff the loop is still alive
(the connection has not been treated as lost) after consuming all of them. -/
def readLoopAlive : List ReadEvent → Bool
  | [] => true
  | e :: rest => if (readLoopIter e).1 then false else readLoopAlive rest

/-- The read timeout installed on the socket once connected (line 2862):
`sock.settimeout(30.0)`. -/
def connectedReadTimeoutSeconds : Nat := 30

/- ### IRC line processing (`_process_irc_line`, lines 2931–2956) -/

/-- Per-platform connection state, the values `_set_tw_state` is called with. -/
inductive TwState
  | disconnected
  | connecting
  | connected
  | reconnecting
  | failed
deriving DecidableEq

/-- The slice of client state read or written by `_process_irc_line`:
`g["tw_state"]` (written only by `_set_tw_state`, which `_process_irc_line` never
calls), `g["tw_stop_event"]` (never set by it either), `g["chat_username"]`, the
debug checkbox, and the status label text. -/
structure IrcClientState where
  tw_state : TwState
  tw_stop_event : Bool
  chat_username : String
  debug_var : Bool
  status_text : String
deriving DecidableEq

/-- Externally visible actions of `_process_irc_line`. -/
inductive IrcLineAction
  | pong
  | handlePrivmsg
deriving DecidableEq

/-- The auth-failure test on line 2943–2945: `"NOTICE" in line and ("authentication
failed" in line or "Login unsuccessful" in line)`. -/
def isAuthFailNotice (line : String) : Bool :=
  pyContains line "NOTICE" &&
    (pyContains line "authentication failed" || pyContains line "Login unsuccessful")

/-- Embedding of `_process_irc_line` (lines 2931–2956).  The debug branch (lines
2932–2934) writes the status label; `PING` lines are answered with `PONG` and dropped;
auth-failure notices only rewrite the status label text and return — they do not touch
`g["tw_state"]` or `g["tw_stop_event"]`; a `001` welcome rewrites the label; a
`PRIVMSG #channel :` line is forwarded to `_handle_privmsg`. -/
def processIrcLine (autoChannel : String) (st : IrcClientState) (line : String) :
    IrcClientState × List IrcLineAction :=
  let st0 := if st.debug_var && !(line == "") then
      { st with status_text := "● DEBUG: " ++ line } else st
  if pyStartsWith line "PING" then
    (st0, [IrcLineAction.pong])
  else if isAuthFailNotice line then
    ({ st0 with status_text := "● AUTH FAILED - RE-AUTHORIZE NEEDED" }, [])
  else
    let st1 := if pyContains line ":tmi.twitch.tv 001" then
        { st0 with status_text := "● CONNECTED AS " ++ pyUpper st.chat_username }
      else st0
    if pyContains line ("PRIVMSG #" ++ autoChannel ++ " :") then
      (st1, [IrcLineAction.handlePrivmsg])
    else
      (st1, [])

/-- The connect loop's decision to go around again after a connection drop: it retries
unless the stop event is set (lines 2847 and 2916). -/
def ircLoopRetriesAfterDrop (stopEvent : Bool) : Bool := !stopEvent

/-- A concrete authentication-failure notice as Twitch sends it. -/
def authFailLine : String := ":tmi.twitch.tv NOTICE * :Login authentication failed"

/-- A concrete connected client state at the moment the notice arrives. -/
def connectedSt : IrcClientState :=
  { tw_state := TwState.connected
    tw_stop_event := false
    chat_username := "bob"
    debug_var := false
    status_text := "● LIVE CHAT CONNECTED" }

/- ### YouTube poll loop (`_poll_yt_chat`, `_start_yt_watcher`, `_stop_yt_chat`) -/

/-- The slice of global state read or written by the YouTube poll loop, watcher and
stop routine: `g["yt_state"]`, `g["yt_polling"]`, `g["yt_live_chat_id"]`,
`g["yt_stop_event"]`, `g["yt_watching"]`, the pending `root.after` job
`g["yt_poll_job"]` (modelled by the delay it was scheduled with), and the poll cursor
`g["yt_next_page"]`. -/
structure YtState where
  yt_state : TwState
  yt_polling : Bool
  yt_live_chat_id : Option String
  yt_stop_event : Bool
  yt_watching : Bool
  yt_poll_job : Option Nat
  yt_next_page : Option String
deriving DecidableEq

/-- Externally visible actions of the poll loop. -/
inductive YtAction
  | schedulePoll (delayMs : Nat)
  | cancelPoll
  | systemNotice (text : String)
  | startWatcherCall
  | watcherCheckSpawned
deriving DecidableEq

/-- The three mutually exclusive failure classes of `_poll_yt_chat`, checked in order
(lines 4047–4077). -/
inductive YtErrClass
  | sessionEnded
  | rateLimited
  | transient
deriving DecidableEq

/-- Embedding of the error-string classification in `_poll_yt_chat` (lines 4048–4066):
session ended if the error mentions `liveChatEnded`, `notFound`, `404`, or a `403`
that is neither quota nor rate related; otherwise rate limited if it mentions
`quotaExceeded`, `rateLimitExceeded`, `429`, or a quota `403`; otherwise transient. -/
def classifyYtError (err : String) : YtErrClass :=
  if pyContains err "liveChatEnded" || pyContains err "notFound" || pyContains err "404"
      || (pyContains err "403" && !(pyContains (pyLower err) "quota")
          && !(pyContains (pyLower err) "rate")) then
    YtErrClass.sessionEnded
  else if pyContains err "quotaExceeded" || pyContains err "rateLimitExceeded"
      || pyContains err "429"
      || (pyContains err "403" && pyContains (pyLower err) "quota") then
    YtErrClass.rateLimited
  else
    YtErrClass.transient

/-- Embedding of `_stop_yt_chat` (lines 4153–4165): sets the stop event, clears the
polling flag and chat id, cancels any pending poll job, and appends the system notice
`"YouTube chat disconnected."` to the chat view. -/
def stopYtChat (s : YtState) : YtState × List YtAction :=
  let cancel : List YtAction :=
    match s.yt_poll_job with
    | some _ => [YtAction.cancelPoll]
    | none => []
  ({ s with yt_stop_event := true
            yt_polling := false
            yt_live_chat_id := none
            yt_poll_job := none },
   cancel ++ [YtAction.systemNotice "YouTube chat disconnected."])

/-- Embedding of the guard portion of `_start_yt_watcher` (lines 4083–4090): returns
without doing anything if a watcher is already running, or if polling is active, or if
the stop event is set; otherwise takes the watcher lock and spawns the check thread. -/
def startYtWatcher (s : YtState) : YtState × List YtAction :=
  if s.yt_watching then (s, [])
  else if s.yt_polling || s.yt_stop_event then (s, [])
  else ({ s with yt_watching := true }, [YtAction.watcherCheckSpawned])

/-- The entry guard of `_poll_yt_chat` (lines 4009–4012): a scheduled poll call
actually polls only when polling is on, a live chat id is stored, and the stop event
is clear. -/
def pollYtChatRuns (s : YtState) : Bool :=
  s.yt_polling && s.yt_live_chat_id.isSome && !s.yt_stop_event

/-- The fields of a YouTube `liveChatMessages.list` response the success path uses. -/
structure YtPollResponse where
  nextPageToken : Option String
  pollingIntervalMillis : Option Nat
deriving DecidableEq

/-- Embedding of the success path of `_poll_yt_chat._fetch` (lines 4016–4041): the
cursor is replaced by the response's continuation token (line 4024), the next delay is
`max(5000, resp.get("pollingIntervalMillis", 5000))` (line 4026), and — if polling is
still on and the stop event clear — the next poll is scheduled after that delay. -/
def pollYtSuccess (s : YtState) (resp : YtPollResponse) : YtState × List YtAction :=
  let s1 := { s with yt_next_page := resp.nextPageToken }
  let interval := max 5000 (resp.pollingIntervalMillis.getD 5000)
  if s1.yt_polling && !s1.yt_stop_event then
    ({ s1 with yt_poll_job := some interval }, [YtAction.schedulePoll interval])
  else
    (s1, [])

/-- Embedding of the error path of `_poll_yt_chat._fetch` (lines 4043–4077):
session-ended errors run `_stop_yt_chat`, append the stream-ended notice, and call
`_start_yt_watcher`; quota/rate-limit errors mark the state `reconnecting` and — if
still polling — schedule one retry after the fixed 300 000 ms cooldown; any other
error schedules one retry after 15 000 ms.  The cursor `yt_next_page` is not touched
on any error path. -/
def pollYtError (s : YtState) (err : String) : YtState × List YtAction :=
  match classifyYtError err with
  | YtErrClass.sessionEnded =>
      let r1 := stopYtChat s
      let notice := YtAction.systemNotice
        "⚪ YouTube stream ended. Chat disconnected. Watching for next stream..."
      let r2 := startYtWatcher r1.1
      (r2.1, r1.2 ++ [notice, YtAction.startWatcherCall] ++ r2.2)
  | YtErrClass.rateLimited =>
      if s.yt_polling then
        ({ s with yt_state := TwState.reconnecting, yt_poll_job := some 300000 },
         [YtAction.schedulePoll 300000])
      else
        ({ s with yt_state := TwState.reconnecting }, [])
  | YtErrClass.transient =>
      if s.yt_polling then
        ({ s with yt_poll_job := some 15000 }, [YtAction.schedulePoll 15000])
      else (s, [])

/-- Number of poll-scheduling actions in an action trace. -/
def countSchedules (l : List YtAction) : Nat :=
  l.countP fun a =>
    match a with
    | YtAction.schedulePoll _ => true
    | _ => false

/-- Number of system notices in an action trace. -/
def countYtNotices (l : List YtAction) : Nat :=
  l.countP fun a =>
    match a with
    | YtAction.systemNotice _ => true
    | _ => false

/-- A concrete state in which the client is actively polling a live chat. -/
def pollingSt : YtState :=
  { yt_state := TwState.connected
    yt_polling := true
    yt_live_chat_id := some "chat-id-1"
    yt_stop_event := false
    yt_watching := false
    yt_poll_job := none
    yt_next_page := some "tok7" }

/-- A concrete error string for an ended live chat, as googleapiclient renders it. -/
def sessionEndedErr : String :=
  "HttpError 403: the live chat is no longer live, liveChatEnded"

/-- A concrete quota error string. -/
def rateLimitErr : String := "HttpError 429: rateLimitExceeded"

/- ### Lurker / presence refresh (`_do_lurker_refresh`, lines 2628–2689, and
`play_lurk_notify`, lines 667–671) -/

/-- One value of `g["session_lurkers"]`: `{"joined": now, "is_live": is_live}`
(line 2650).  Timestamps are modelled as integer seconds. -/
structure LurkSession where
  joined : Int
  is_live : Bool
deriving DecidableEq

/-- One entry of the per-refresh report lists (lines 2658–2662). -/
structure LurkEntry where
  name : String
  joined : Int
  is_live : Bool
deriving DecidableEq

/-- External side-effects of the refresh: `log_lurker(un)` and the audible cue of
`play_lurk_notify()`. -/
inductive LurkAction
  | logLurker (name : String)
  | playLurkSound
deriving DecidableEq

/-- The globals touched by the refresh: the per-process session registry
`g["session_lurkers"]` (an insertion-ordered dict, modelled as an association list),
the process-lifetime first-sighting set `g["known_lurkers"]`, and the sound-cooldown
clock `g["last_sound_time"]` / `g["sound_cooldown_seconds"]` shared with the chat
notification sound. -/
structure LurkerState where
  session_lurkers : List (String × LurkSession)
  known_lurkers : List String
  last_sound_time : Int
  sound_cooldown_seconds : Int
deriving DecidableEq

/-- In-place update of the `is_live` flag of the registry entry with the given key,
embedding `g["session_lurkers"][un]["is_live"] = is_live` (line 2656). -/
def setIsLive (un : String) (b : Bool) : List (String × LurkSession) →
    List (String × LurkSession)
  | [] => []
  | (k2, s) :: rest =>
      if k2 == un then (k2, { s with is_live := b }) :: rest
      else (k2, s) :: setIsLive un b rest

/-- Embedding of `play_lurk_notify` (lines 667–671): the cue plays — and the shared
cooldown clock is advanced — only when at least `sound_cooldown_seconds` have elapsed
since the last notification sound. -/
def playLurkNotify (now : Int) (st : LurkerState) : LurkerState × List LurkAction :=
  if now - st.last_sound_time ≥ st.sound_cooldown_seconds then
    ({ st with last_sound_time := now }, [LurkAction.playLurkSound])
  else (st, [])

/-- Result of processing one chatter in the refresh loop. -/
structure StepOut where
  st : LurkerState
  acts : List LurkAction
  entry : LurkEntry
deriving DecidableEq

/-- Embedding of the body of the `for c in chatters["data"]` loop (lines 2645–2662):
a chatter absent from the registry is inserted with `joined := now`, and — if never
seen before in this process — logged and announced via `play_lurk_notify`; a chatter
already present has only its `is_live` flag updated.  The reported entry carries the
registry's `joined` value. -/
def lurkStep (now : Int) (st : LurkerState) (un : String) (is_live : Bool) : StepOut :=
  match st.session_lurkers.lookup un with
  | none =>
      let st1 := { st with
        session_lurkers := st.session_lurkers ++ [(un, ⟨now, is_live⟩)] }
      if pyIn un st1.known_lurkers then
        ⟨st1, [], ⟨un, now, is_live⟩⟩
      else
        let st2 := { st1 with known_lurkers := st1.known_lurkers ++ [un] }
        let r := playLurkNotify now st2
        ⟨r.1, LurkAction.logLurker un :: r.2, ⟨un, now, is_live⟩⟩
  | some s =>
      ⟨{ st with session_lurkers := setIsLive un is_live st.session_lurkers },
       [], ⟨un, s.joined, is_live⟩⟩

/-- Result of one whole refresh tick. -/
structure RefreshOut where
  st : LurkerState
  acts : List LurkAction
  longest : List LurkEntry
  recent : List LurkEntry
deriving DecidableEq

/-- Embedding of the refresh loop of `_do_lurker_refresh` (lines 2642–2666): every
reported chatter is processed in order and classified fresh from `now - joined`:
at least 300 seconds of dwell puts the entry in the long-lived list, anything less in
the recent list. -/
def doLurkerRefresh (now : Int) (st : LurkerState) :
    List (String × Bool) → RefreshOut
  | [] => ⟨st, [], [], []⟩
  | (un, is_live) :: rest =>
      let r1 := lurkStep now st un is_live
      let r2 := doLurkerRefresh now r1.st rest
      if now - r1.entry.joined ≥ 300 then
        ⟨r2.st, r1.acts ++ r2.acts, r1.entry :: r2.longest, r2.recent⟩
      else
        ⟨r2.st, r1.acts ++ r2.acts, r2.longest, r1.entry :: r2.recent⟩

/-- A whole process lifetime of refresh ticks: each tick is a wall-clock time and the
fresh chatter list reported at that time.  Returns the final state and the
concatenated side-effect trace. -/
def runRefreshes (st : LurkerState) :
    List (Int × List (String × Bool)) → LurkerState × List LurkAction
  | [] => (st, [])
  | (now, cs) :: rest =>
      let r := doLurkerRefresh now st cs
      let r2 := runRefreshes r.st rest
      (r2.1, r.acts ++ r2.2)

/-- Number of `log_lurker` calls for a given identity in a side-effect trace. -/
def countLog (un : String) : List LurkAction → Nat
  | [] => 0
  | LurkAction.logLurker x :: rest => (if x = un then 1 else 0) + countLog un rest
  | LurkAction.playLurkSound :: rest => countLog un rest

/-- Number of `log_lurker` calls for any identity in a side-effect trace. -/
def countAllLogs : List LurkAction → Nat
  | [] => 0
  | LurkAction.logLurker _ :: rest => 1 + countAllLogs rest
  | LurkAction.playLurkSound :: rest => countAllLogs rest

/-- Number of audible cues in a side-effect trace. -/
def countSounds : List LurkAction → Nat
  | [] => 0
  | LurkAction.logLurker _ :: rest => countSounds rest
  | LurkAction.playLurkSound :: rest => 1 + countSounds rest

/-- Whether an identity appears in a fresh chatter list. -/
def appearsIn (un : String) (cs : List (String × Bool)) : Bool :=
  cs.any fun c => c.1 == un

/-- Whether an identity appears in any tick of a lifetime of refreshes. -/
def appearsInRun (un : String) (ticks : List (Int × List (String × Bool))) : Bool :=
  ticks.any fun t => appearsIn un t.2

/-- The process-start lurker state: empty registry and known set (lines 287–292),
`last_sound_time` far in the past (`datetime.min`), 5-second cooldown. -/
def lurkSt0 : LurkerState :=
  { session_lurkers := []
    known_lurkers := []
    last_sound_time := -1000000
    sound_cooldown_seconds := 5 }

/- ### Emote-descriptor parsing (`_handle_privmsg`, lines 3002–3015) -/

/-- Splits a character list at the first occurrence of `sep`: embedding of the
`":" in entry` guard together with `entry.split(":", 1)` (lines 3006–3007), `none`
when the separator does not occur. -/
def splitFirst (sep : Char) : List Char → Option (List Char × List Char)
  | [] => none
  | c :: rest =>
      if c = sep then some ([], rest)
      else
        match splitFirst sep rest with
        | none => none
        | some (a, b2) => some (c :: a, b2)

/-- Splits a character list at every occurrence of `sep`, embedding Python's
`s.split(sep)`: the result is always nonempty and empty pieces are kept. -/
def splitAll (sep : Char) : List Char → List (List Char)
  | [] => [[]]
  | c :: rest =>
      if c = sep then [] :: splitAll sep rest
      else
        match splitAll sep rest with
        | [] => [[c]]
        | piece :: more => (c :: piece) :: more

/-- Numeric value of a character run, `none` as soon as a non-digit occurs. -/
def digitsValCore (acc : Nat) : List Char → Option Nat
  | [] => some acc
  | c :: rest =>
      if c.isDigit then digitsValCore (acc * 10 + (c.toNat - 48)) rest else none

/-- Numeric value of a nonempty all-digit run. -/
def digitsValNE : List Char → Option Nat
  | [] => none
  | l => digitsValCore 0 l

/-- Python's `s.strip()` on a character list. -/
def trimChars (l : List Char) : List Char :=
  ((l.dropWhile Char.isWhitespace).reverse.dropWhile Char.isWhitespace).reverse

/-- Embedding of Python's `int(s)` on the strings the range tokens can contain:
surrounding whitespace is stripped, an optional sign is honoured, and anything else
non-digit raises `ValueError`, modelled as `none`.  (CPython additionally accepts
underscore grouping between digits, which is not modelled; range tokens in the wire
format are plain digit runs.) -/
def pyIntChars (l : List Char) : Option Int :=
  match trimChars l with
  | [] => none
  | c :: rest =>
      if c = '-' then (digitsValNE rest).map (fun n => -(n : Int))
      else if c = '+' then (digitsValNE rest).map (fun n => (n : Int))
      else (digitsValNE (c :: rest)).map (fun n => (n : Int))

/-- Python slice `msg[s:e]` for `0 ≤ s`: a negative `e` counts from the end of the
list; crossed bounds give the empty slice. -/
def pySlice (msg : List Char) (s e : Int) : List Char :=
  let e2 : Nat := if e < 0 then (msg.length + e).toNat else e.toNat
  (msg.take e2).drop s.toNat

/-- Embedding of the per-entry emote parse (lines 3005–3015): an entry contributes a
`(span, resourceId)` pair exactly when it contains a `:`, its first comma-separated
range splits into at least two `-`-separated pieces, the first two pieces parse as
ints `s` and `end`, and the exclusive range satisfies `s >= 0 and end+1 <= len(msg)`;
the span is `msg[s : end+1]`.  Any failure inside the `try` (missing `:` aside, which
is checked before it) is caught by the bare `except` and yields `none`. -/
def emoteEntryParse (msg entry : List Char) : Option (List Char × List Char) :=
  match splitFirst ':' entry with
  | none => none
  | some (eid, ranges) =>
      let firstRange :=
        match splitAll ',' ranges with
        | [] => []
        | r :: _ => r
      match splitAll '-' firstRange with
      | r0 :: r1 :: _ =>
          match pyIntChars r0, pyIntChars r1 with
          | some s, some e1 =>
              if 0 ≤ s ∧ e1 + 1 ≤ (msg.length : Int) then
                some (pySlice msg s (e1 + 1), eid)
              else none
          | _, _ => none
      | _ => none

/-- Python dict assignment `d[k] = v` on an insertion-ordered string-keyed dict
modelled as an association list: updates the first entry with the key in place,
otherwise appends. -/
def dictInsert (k v : List Char) :
    List (List Char × List Char) → List (List Char × List Char)
  | [] => [(k, v)]
  | (k2, v2) :: rest =>
      if k2 = k then (k2, v) :: rest else (k2, v2) :: dictInsert k v rest

/-- Processing of one `/`-separated descriptor entry against the accumulated emote
map: a well-formed in-range entry inserts its span, anything else leaves the map
untouched (`except ... pass`). -/
def processEmoteEntry (msg : List Char) (emap : List (List Char × List Char))
    (entry : List Char) : List (List Char × List Char) :=
  match emoteEntryParse msg entry with
  | none => emap
  | some kv => dictInsert kv.1 kv.2 emap

/-- Embedding of the emote-map construction of `_handle_privmsg` (lines 3002–3015):
nothing is parsed when the descriptor is empty (`if emote_data:`); otherwise each
`/`-separated entry is processed in order into the dict. -/
def parseEmotes (msg ed : List Char) : List (List Char × List Char) :=
  if ed = [] then []
  else (splitAll '/' ed).foldl (processEmoteEntry msg) []

/-- Key-membership test on the emote map. -/
def hasKeyE (k : List Char) : List (List Char × List Char) → Bool
  | [] => false
  | (k2, _) :: rest => k2 == k || hasKeyE k rest

/-- The tail of `_handle_privmsg` around the emote parse (lines 2990–3015): a line
with no extracted user or no body is dropped (line 2990); otherwise the body is kept
untouched and paired with the parsed emote map. -/
def privmsgBodyAndEmotes (user msg ed : List Char) :
    Option (List Char × List Char × List (List Char × List Char)) :=
  if user = [] ∨ msg = [] then none
  else some (user, msg, parseEmotes msg ed)

/- ### Send anti-bounce guard (`_send_chat_message`, lines 3792–3868) -/

/-- The state read or written by `_send_chat_message` with the default
`SEND_TARGET = "twitch"`: the `_last_send_time` attribute (absent before the first
call), the pending input text of the message box, whether `g["chat_socket"]` is open,
and the sender's username. -/
structure SendState where
  last_send_time : Option ℚ
  chat_input : String
  chat_socket : Bool
  chat_username : String
deriving DecidableEq

/-- Externally visible actions of `_send_chat_message`. -/
inductive SendAction
  | ircWrite (payload : String)
  | localEcho (text : String)
  | warnDialog (title : String)
  | errorDialog (title : String)
deriving DecidableEq

/-- The body of `_send_chat_message` after the anti-bounce guard, for the Twitch
target (lines 3800–3835 and 3865–3868): an empty trimmed message returns; a missing
socket warns and returns; otherwise the message is written to the socket
(`writeOk` tells whether `sendall` raises), echoed locally, and the input box cleared
— a failed write reports an error dialog instead. -/
def sendProceed (channel : String) (st : SendState) (writeOk : Bool) :
    SendState × List SendAction :=
  let message := st.chat_input.trim
  if message = "" then (st, [])
  else if st.chat_socket = false then
    (st, [SendAction.warnDialog "Twitch Not Connected"])
  else if writeOk then
    ({ st with chat_input := "" },
     [SendAction.ircWrite ("PRIVMSG #" ++ channel ++ " :" ++ message),
      SendAction.localEcho message])
  else
    (st, [SendAction.errorDialog "Twitch Send Failed"])

/-- Embedding of `_send_chat_message` (lines 3792–3868, Twitch target): the
anti-bounce guard (lines 3793–3798) returns immediately — before reading the input
box or touching the socket — when the call comes less than 1.5 seconds after the
previous one; otherwise `_last_send_time` is set to `now` and the send proceeds.
`now` is `time.time()` in seconds, modelled as a rational. -/
def sendChatMessage (channel : String) (st : SendState) (now : ℚ) (writeOk : Bool) :
    SendState × List SendAction :=
  match st.last_send_time with
  | some t =>
      if now - t < 3 / 2 then (st, [])
      else sendProceed channel { st with last_send_time := some now } writeOk
  | none => sendProceed channel { st with last_send_time := some now } writeOk

/-!
## Theorems
-/

/- ### C1 — backoff reset and doubling -/

theorem backoffDouble_min_pow (k : Nat) :
    backoffDouble (min (2 ^ (k + 1)) 60) = min (2 ^ (k + 2)) 60 := by
  have hp : 2 ^ (k + 2) = 2 ^ (k + 1) * 2 := pow_succ 2 (k + 1)
  unfold backoffDouble
  omega

theorem ircWaits_all_failures (k : Nat) (tr : List ConnectOutcome)
    (hf : ∀ o ∈ tr, o = ConnectOutcome.failure) :
    ircWaits (min (2 ^ (k + 1)) 60) tr
      = (List.range tr.length).map (fun i => min (2 ^ (k + 1 + i)) 60) := by
  induction tr generalizing k with
  | nil => simp [ircWaits]
  | cons o rest ih =>
      have ho : o = ConnectOutcome.failure := hf o (by simp)
      subst ho
      have hrest : ∀ o ∈ rest, o = ConnectOutcome.failure := by
        intro o h
        exact hf o (List.mem_cons_of_mem _ h)
      simp only [ircWaits, ircLoopIter, backoffAfterAttempt]
      rw [backoffDouble_min_pow, ih (k + 1) hrest]
      rw [List.length_cons, List.range_succ_eq_map, List.map_cons, List.map_map]
      have hfun : ((fun i => min (2 ^ (k + 1 + i)) 60) ∘ Nat.succ)
          = (fun i => min (2 ^ (k + 1 + 1 + i)) 60) := by
        funext i
        have harith : k + 1 + Nat.succ i = k + 1 + 1 + i := by omega
        simp [Function.comp, harith]
      rw [hfun]

/-- C1: immediately after every successful connect the backoff is reset to 2 seconds
(line 2864), and the waits performed over any run of consecutive failed iterations
starting from that reset value are 2, 4, 8, 16, 32, 60, 60, ... — the i-th wait is
`min (2 ^ (i+1)) 60`: each failure doubles the delay, capped at 60 seconds. -/
theorem C1_backoff_reset_and_doubling (b n : Nat) (tr : List ConnectOutcome)
    (hf : ∀ o ∈ tr, o = ConnectOutcome.failure) (hn : tr.length = n) :
    backoffAfterAttempt b ConnectOutcome.success = 2 ∧
    ircWaits 2 tr = (List.range n).map (fun i => min (2 ^ (i + 1)) 60) := by
  subst hn
  refine ⟨rfl, ?_⟩
  have hall := ircWaits_all_failures 0 tr hf
  have h0 : min (2 ^ (0 + 1)) 60 = 2 := by decide
  rw [h0] at hall
  rw [hall]
  have hfun : (fun i => min (2 ^ (0 + 1 + i)) 60) = (fun i => min (2 ^ (i + 1)) 60) := by
    funext i
    have harith : 0 + 1 + i = i + 1 := by omega
    rw [harith]
  rw [hfun]

/-- Witness for C1 at a concrete trace of seven consecutive failures. -/
theorem C1_backoff_witness :
    backoffAfterAttempt 60 ConnectOutcome.success = 2 ∧
    ircWaits 2 (List.replicate 7 ConnectOutcome.failure)
      = (List.range 7).map (fun i => min (2 ^ (i + 1)) 60) :=
  C1_backoff_reset_and_doubling 60 7 (List.replicate 7 ConnectOutcome.failure)
    (fun _ ho => List.eq_of_mem_replicate ho) rfl

/- ### C5 — read timeouts and keep-alive -/

/-- C5: counterexample.  Three consecutive read timeouts with no other traffic in
between (each keep-alive PING write succeeding) do NOT cause the connection to be
treated as lost — the read loop is still alive afterwards, because the code contains no
counter of consecutive timeouts.  This refutes the claim that exactly three consecutive
read timeouts are treated as connection loss. -/
theorem C5_counterexample :
    readLoopAlive [ReadEvent.timeout true, ReadEvent.timeout true, ReadEvent.timeout true]
        = true ∧
    readLoopIter (ReadEvent.timeout true) = (false, some ReadIterAction.ping) := by
  decide

/-- C5 (amended): while connected the read timeout is 30 seconds and a timeout sends a
protocol-level PING rather than treating the read as failed; consecutive timeouts are
not counted, so any number of consecutive timeouts leaves the connection alive as long
as each PING write succeeds; the connection is treated as lost exactly on an empty
recv, another I/O error, or a failed PING write. -/
theorem C5_amended_timeout_ping (n : Nat) :
    connectedReadTimeoutSeconds = 30 ∧
    readLoopIter (ReadEvent.timeout true) = (false, some ReadIterAction.ping) ∧
    readLoopAlive (List.replicate n (ReadEvent.timeout true)) = true ∧
    (readLoopIter (ReadEvent.timeout false)).1 = true ∧
    (readLoopIter ReadEvent.eof).1 = true ∧
    (readLoopIter ReadEvent.ioError).1 = true := by
  refine ⟨rfl, rfl, ?_, rfl, rfl, rfl⟩
  induction n with
  | zero => rfl
  | succ m ih => simpa [List.replicate_succ, readLoopAlive, readLoopIter] using ih

/-- Witness for C5 (amended) at three consecutive timeouts. -/
theorem C5_amended_witness :
    connectedReadTimeoutSeconds = 30 ∧
    readLoopIter (ReadEvent.timeout true) = (false, some ReadIterAction.ping) ∧
    readLoopAlive (List.replicate 3 (ReadEvent.timeout true)) = true ∧
    (readLoopIter (ReadEvent.timeout false)).1 = true ∧
    (readLoopIter ReadEvent.eof).1 = true ∧
    (readLoopIter ReadEvent.ioError).1 = true :=
  C5_amended_timeout_ping 3

/- ### C2 — authentication-failure notices -/

/-- C2: counterexample.  When a connected client processes a server
authentication-failure notice, `_process_irc_line` only rewrites the status label: the
connection state stays `connected` — it is not forced to `failed` — the stop event is
untouched, and therefore the connect loop will still retry automatically after the
connection drops.  This refutes the claim that such a notice forces the `Failed` state
and halts automatic reconnection. -/
theorem C2_counterexample :
    isAuthFailNotice authFailLine = true ∧
    (processIrcLine "mychannel" connectedSt authFailLine).1.tw_state = TwState.connected ∧
    ¬ (processIrcLine "mychannel" connectedSt authFailLine).1.tw_state = TwState.failed ∧
    (processIrcLine "mychannel" connectedSt authFailLine).1.tw_stop_event = false ∧
    ircLoopRetriesAfterDrop
      (processIrcLine "mychannel" connectedSt authFailLine).1.tw_stop_event = true := by
  decide

/-- C2 (amended): an authentication-failure notice from the server is handled
internally and reported by rewriting the status label to the auth-failed message, and
the line produces no protocol action; but the connection state and the stop event are
left unchanged, so automatic reconnection continues — the `Failed` state is only
entered by the pre-connect token-validation path, not by this notice. -/
theorem C2_amended_auth_notice (ch : String) (st : IrcClientState) (line : String)
    (hna : isAuthFailNotice line = true) (hnp : pyStartsWith line "PING" = false)
    (hdbg : st.debug_var = false) :
    processIrcLine ch st line
      = ({ st with status_text := "● AUTH FAILED - RE-AUTHORIZE NEEDED" }, []) ∧
    (processIrcLine ch st line).1.tw_state = st.tw_state ∧
    (processIrcLine ch st line).1.tw_stop_event = st.tw_stop_event ∧
    ircLoopRetriesAfterDrop (processIrcLine ch st line).1.tw_stop_event
      = ircLoopRetriesAfterDrop st.tw_stop_event := by
  have h : processIrcLine ch st line
      = ({ st with status_text := "● AUTH FAILED - RE-AUTHORIZE NEEDED" }, []) := by
    simp [processIrcLine, hdbg, hnp, hna]
  refine ⟨h, ?_, ?_, ?_⟩ <;> rw [h]

/-- Witness for C2 (amended) at the concrete notice line and connected state. -/
theorem C2_amended_witness :
    processIrcLine "mychannel" connectedSt authFailLine
      = ({ connectedSt with status_text := "● AUTH FAILED - RE-AUTHORIZE NEEDED" }, []) :=
  (C2_amended_auth_notice "mychannel" connectedSt authFailLine
    (by decide) (by decide) (by decide)).1

/- ### C3 — session-ended handling -/

/-- C3: evaluation at the failing input.  With polling active, a poll error classified
as session-ended does stop polling (the guard of any later scheduled poll is false and
no retry is scheduled) and makes exactly one watcher-start call — but the watcher does
NOT take over: `_stop_yt_chat` sets the stop event before `_start_yt_watcher` runs, so
the watcher's guard returns immediately (the watcher lock is never taken and no check
is spawned), and two system notices are emitted rather than one. -/
theorem C3_session_ended_eval :
    classifyYtError sessionEndedErr = YtErrClass.sessionEnded ∧
    pollYtChatRuns (pollYtError pollingSt sessionEndedErr).1 = false ∧
    countSchedules (pollYtError pollingSt sessionEndedErr).2 = 0 ∧
    (pollYtError pollingSt sessionEndedErr).2.count YtAction.startWatcherCall = 1 ∧
    (pollYtError pollingSt sessionEndedErr).1.yt_stop_event = true ∧
    (pollYtError pollingSt sessionEndedErr).1.yt_watching = false ∧
    (pollYtError pollingSt sessionEndedErr).2.count YtAction.watcherCheckSpawned = 0 ∧
    countYtNotices (pollYtError pollingSt sessionEndedErr).2 = 2 := by
  decide

/- ### C4 — quota/rate-limit cooldown -/

/-- C4: a poll failure classified as quota/rate-limited schedules exactly one retry
300 000 ms later and leaves the stored cursor unchanged: the resulting state is the old
one with only the connection state marked reconnecting and the pending job replaced by
the 5-minute cooldown job, and the action trace is the single scheduling action. -/
theorem C4_rate_limit_cooldown (s : YtState) (err : String)
    (hc : classifyYtError err = YtErrClass.rateLimited) (hp : s.yt_polling = true) :
    pollYtError s err
      = ({ s with yt_state := TwState.reconnecting, yt_poll_job := some 300000 },
         [YtAction.schedulePoll 300000]) ∧
    (pollYtError s err).1.yt_next_page = s.yt_next_page ∧
    countSchedules (pollYtError s err).2 = 1 := by
  have h : pollYtError s err
      = ({ s with yt_state := TwState.reconnecting, yt_poll_job := some 300000 },
         [YtAction.schedulePoll 300000]) := by
    simp [pollYtError, hc, hp]
  exact ⟨h, by rw [h], by rw [h]; rfl⟩

/-- Witness for C4 at a concrete polling state and a concrete 429 error. -/
theorem C4_rate_limit_witness :
    pollYtError pollingSt rateLimitErr
      = ({ pollingSt with yt_state := TwState.reconnecting, yt_poll_job := some 300000 },
         [YtAction.schedulePoll 300000]) ∧
    (pollYtError pollingSt rateLimitErr).1.yt_next_page = pollingSt.yt_next_page ∧
    countSchedules (pollYtError pollingSt rateLimitErr).2 = 1 :=
  C4_rate_limit_cooldown pollingSt rateLimitErr (by decide) (by decide)

/- ### C6 — successful poll: cursor replacement and interval clamp -/

/-- C6: after every successful poll (with polling still on and the stop event clear),
the stored cursor is replaced by the response's continuation token, and the delay of
the next scheduled poll is `max 5000` of the server-advertised polling interval in
milliseconds. -/
theorem C6_success_cursor_and_interval (s : YtState) (resp : YtPollResponse) (m : Nat)
    (hp : s.yt_polling = true) (hs : s.yt_stop_event = false)
    (hm : resp.pollingIntervalMillis = some m) :
    (pollYtSuccess s resp).1.yt_next_page = resp.nextPageToken ∧
    (pollYtSuccess s resp).1.yt_poll_job = some (max 5000 m) ∧
    (pollYtSuccess s resp).2 = [YtAction.schedulePoll (max 5000 m)] := by
  simp [pollYtSuccess, hp, hs, hm]

/-- Witness for C6 at a concrete state and response advertising a 7000 ms interval. -/
theorem C6_success_witness :
    (pollYtSuccess pollingSt ⟨some "tok8", some 7000⟩).1.yt_next_page = some "tok8" ∧
    (pollYtSuccess pollingSt ⟨some "tok8", some 7000⟩).1.yt_poll_job = some (max 5000 7000) ∧
    (pollYtSuccess pollingSt ⟨some "tok8", some 7000⟩).2
      = [YtAction.schedulePoll (max 5000 7000)] :=
  C6_success_cursor_and_interval pollingSt ⟨some "tok8", some 7000⟩ 7000 rfl rfl rfl

/- ### C7 — presence refresh: immutable joinedAt and fresh classification -/

theorem lookup_append_of_some (l1 l2 : List (String × LurkSession)) (k : String)
    (s : LurkSession) (h : l1.lookup k = some s) : (l1 ++ l2).lookup k = some s := by
  induction l1 with
  | nil => simp [List.lookup] at h
  | cons p rest ih =>
      obtain ⟨k2, s2⟩ := p
      simp only [List.cons_append, List.lookup] at h ⊢
      cases hk : (k == k2) with
      | true => rw [hk] at h; exact h
      | false => rw [hk] at h; exact ih h

theorem setIsLive_lookup_joined (un k : String) (b : Bool)
    (l : List (String × LurkSession)) (s : LurkSession) (h : l.lookup k = some s) :
    ∃ c, (setIsLive un b l).lookup k = some ⟨s.joined, c⟩ := by
  induction l with
  | nil => simp [List.lookup] at h
  | cons p rest ih =>
      obtain ⟨k2, s2⟩ := p
      simp only [List.lookup] at h
      by_cases h2 : (k2 == un) = true
      · simp only [setIsLive]
        rw [if_pos h2]
        simp only [List.lookup]
        cases hk : (k == k2) with
        | true =>
            rw [hk] at h
            have hs : s2 = s := Option.some_inj.mp h
            exact ⟨b, by rw [hs]⟩
        | false =>
            rw [hk] at h
            exact ⟨s.is_live, h⟩
      · simp only [setIsLive]
        rw [if_neg h2]
        simp only [List.lookup]
        cases hk : (k == k2) with
        | true =>
            rw [hk] at h
            have hs : s2 = s := Option.some_inj.mp h
            exact ⟨s.is_live, by rw [hs]⟩
        | false =>
            rw [hk] at h
            exact ih h

theorem lurkStep_lookup_joined (now : Int) (st : LurkerState) (un : String) (b : Bool)
    (k : String) (s : LurkSession)
    (h : st.session_lurkers.lookup k = some s) :
    ∃ c, (lurkStep now st un b).st.session_lurkers.lookup k = some ⟨s.joined, c⟩ := by
  unfold lurkStep
  cases hl : st.session_lurkers.lookup un with
  | none =>
      by_cases hk : pyIn un st.known_lurkers = true
      · simp only [hk, if_pos rfl]
        exact ⟨s.is_live, by
          simpa using lookup_append_of_some _ [(un, ⟨now, b⟩)] k s h⟩
      · simp only [Bool.not_eq_true] at hk
        simp only [hk, Bool.false_eq_true, if_false, playLurkNotify]
        by_cases hc : now - st.last_sound_time ≥ st.sound_cooldown_seconds
        · rw [if_pos hc]
          exact ⟨s.is_live, by
            simpa using lookup_append_of_some _ [(un, ⟨now, b⟩)] k s h⟩
        · rw [if_neg hc]
          exact ⟨s.is_live, by
            simpa using lookup_append_of_some _ [(un, ⟨now, b⟩)] k s h⟩
  | some s2 =>
      exact setIsLive_lookup_joined un k b st.session_lurkers s h

theorem doLurkerRefresh_lookup_joined (now : Int) (cs : List (String × Bool))
    (st : LurkerState) (k : String) (s : LurkSession)
    (h : st.session_lurkers.lookup k = some s) :
    ∃ c, (doLurkerRefresh now st cs).st.session_lurkers.lookup k = some ⟨s.joined, c⟩ := by
  induction cs generalizing st s with
  | nil => exact ⟨s.is_live, by simpa using h⟩
  | cons p rest ih =>
      obtain ⟨un, b⟩ := p
      obtain ⟨c1, h1⟩ := lurkStep_lookup_joined now st un b k s h
      obtain ⟨c2, h2⟩ := ih (lurkStep now st un b).st ⟨s.joined, c1⟩ h1
      refine ⟨c2, ?_⟩
      simp only [doLurkerRefresh]
      by_cases hcl : now - (lurkStep now st un b).entry.joined ≥ 300
      · rw [if_pos hcl]
        exact h2
      · rw [if_neg hcl]
        exact h2

theorem doLurkerRefresh_classes (now : Int) (cs : List (String × Bool))
    (st : LurkerState) :
    (∀ e ∈ (doLurkerRefresh now st cs).longest, now - e.joined ≥ 300) ∧
    (∀ e ∈ (doLurkerRefresh now st cs).recent, now - e.joined < 300) := by
  induction cs generalizing st with
  | nil => simp [doLurkerRefresh]
  | cons p rest ih =>
      obtain ⟨un, b⟩ := p
      simp only [doLurkerRefresh]
      by_cases hcl : now - (lurkStep now st un b).entry.joined ≥ 300
      · rw [if_pos hcl]
        refine ⟨?_, (ih _).2⟩
        intro e he
        rcases List.mem_cons.mp he with he | he
        · subst he; exact hcl
        · exact (ih _).1 e he
      · rw [if_neg hcl]
        refine ⟨(ih _).1, ?_⟩
        intro e he
        rcases List.mem_cons.mp he with he | he
        · subst he; omega
        · exact (ih _).2 e he

/-- C7: on every presence-refresh tick, an identity already in the registry keeps its
`joined` timestamp unchanged (only the live flag may differ), and the report is
classified fresh from `now - joined`: every long-lived entry has dwelt at least 300
seconds and every recent entry strictly less. -/
theorem C7_presence_refresh (now : Int) (st : LurkerState) (cs : List (String × Bool)) :
    (∀ k s, st.session_lurkers.lookup k = some s →
      ∃ c, (doLurkerRefresh now st cs).st.session_lurkers.lookup k = some ⟨s.joined, c⟩) ∧
    (∀ e ∈ (doLurkerRefresh now st cs).longest, now - e.joined ≥ 300) ∧
    (∀ e ∈ (doLurkerRefresh now st cs).recent, now - e.joined < 300) :=
  ⟨fun k s h => doLurkerRefresh_lookup_joined now cs st k s h,
   (doLurkerRefresh_classes now cs st).1,
   (doLurkerRefresh_classes now cs st).2⟩

/-- Witness for C7, replaying the spec's own scenario: an identity first seen at time 1
is classified recent on that tick; on a tick at time 302 (301 seconds after its
`joined` value of 1, which is unchanged) it is classified long-lived. -/
theorem C7_presence_witness :
    (∃ c, ((doLurkerRefresh 302
        (doLurkerRefresh 1 lurkSt0 [("alice", false)]).st
        [("alice", true)]).st.session_lurkers.lookup "alice") = some ⟨1, c⟩) ∧
    (doLurkerRefresh 1 lurkSt0 [("alice", false)]).recent
        = [⟨"alice", 1, false⟩] ∧
    (doLurkerRefresh 302
        (doLurkerRefresh 1 lurkSt0 [("alice", false)]).st
        [("alice", true)]).longest = [⟨"alice", 302 - 301, true⟩] := by
  refine ⟨?_, by decide, by decide⟩
  exact (C7_presence_refresh 302 (doLurkerRefresh 1 lurkSt0 [("alice", false)]).st
    [("alice", true)]).1 "alice" ⟨1, false⟩ (by decide)

/- ### C9 — first-sighting notification -/

theorem pyIn_append_one (l : List String) (x k : String) :
    pyIn k (l ++ [x]) = (pyIn k l || (k == x)) := by
  induction l with
  | nil => simp [pyIn]
  | cons y rest ih => simp [pyIn, ih, Bool.or_assoc]

theorem lookup_append_none (l1 l2 : List (String × LurkSession)) (k : String)
    (h : l1.lookup k = none) : (l1 ++ l2).lookup k = l2.lookup k := by
  induction l1 with
  | nil => rfl
  | cons p rest ih =>
      obtain ⟨k2, s2⟩ := p
      simp only [List.lookup] at h
      simp only [List.cons_append, List.lookup]
      cases hk : (k == k2) with
      | true => rw [hk] at h; simp at h
      | false => rw [hk] at h; exact ih h

theorem setIsLive_lookup_none (un2 un : String) (b : Bool)
    (l : List (String × LurkSession)) (h : l.lookup un = none) :
    (setIsLive un2 b l).lookup un = none := by
  induction l with
  | nil => rfl
  | cons p rest ih =>
      obtain ⟨k2, s2⟩ := p
      simp only [List.lookup] at h
      cases hk : (un == k2) with
      | true => rw [hk] at h; simp at h
      | false =>
          rw [hk] at h
          simp only [setIsLive]
          by_cases h2 : (k2 == un2) = true
          · rw [if_pos h2]
            simp only [List.lookup]
            rw [hk]
            exact h
          · rw [if_neg h2]
            simp only [List.lookup]
            rw [hk]
            exact ih h

theorem countLog_append (un : String) (l1 l2 : List LurkAction) :
    countLog un (l1 ++ l2) = countLog un l1 + countLog un l2 := by
  induction l1 with
  | nil => simp [countLog]
  | cons a rest ih =>
      cases a with
      | logLurker x => simp [countLog, ih, Nat.add_assoc]
      | playLurkSound => simp [countLog, ih]

theorem countAllLogs_append (l1 l2 : List LurkAction) :
    countAllLogs (l1 ++ l2) = countAllLogs l1 + countAllLogs l2 := by
  induction l1 with
  | nil => simp [countAllLogs]
  | cons a rest ih =>
      cases a with
      | logLurker x => simp [countAllLogs, ih, Nat.add_assoc]
      | playLurkSound => simp [countAllLogs, ih]

theorem countSounds_append (l1 l2 : List LurkAction) :
    countSounds (l1 ++ l2) = countSounds l1 + countSounds l2 := by
  induction l1 with
  | nil => simp [countSounds]
  | cons a rest ih =>
      cases a with
      | logLurker x => simp [countSounds, ih]
      | playLurkSound => simp [countSounds, ih, Nat.add_assoc]

theorem appearsIn_cons (un un2 : String) (b : Bool) (rest : List (String × Bool)) :
    appearsIn un ((un2, b) :: rest) = ((un2 == un) || appearsIn un rest) := by
  simp [appearsIn]

theorem lurkStep_c9 (now : Int) (st : LurkerState) (un2 : String) (b : Bool) (un : String)
    (hpre : st.session_lurkers.lookup un = none ∨ pyIn un st.known_lurkers = true) :
    (countLog un (lurkStep now st un2 b).acts
        = if pyIn un st.known_lurkers = false ∧ un2 = un then 1 else 0) ∧
    (pyIn un (lurkStep now st un2 b).st.known_lurkers = true
        ↔ (pyIn un st.known_lurkers = true ∨ un2 = un)) ∧
    ((lurkStep now st un2 b).st.session_lurkers.lookup un = none
        ∨ pyIn un (lurkStep now st un2 b).st.known_lurkers = true) ∧
    countSounds (lurkStep now st un2 b).acts ≤ countAllLogs (lurkStep now st un2 b).acts := by
  cases hl : st.session_lurkers.lookup un2 with
  | some s =>
      have hstep : lurkStep now st un2 b
          = ⟨{ st with session_lurkers := setIsLive un2 b st.session_lurkers },
             [], ⟨un2, s.joined, b⟩⟩ := by
        simp [lurkStep, hl]
      rw [hstep]
      have hne : ¬ (pyIn un st.known_lurkers = false ∧ un2 = un) := by
        rintro ⟨hf, he⟩
        subst he
        rcases hpre with hp | hp
        · rw [hp] at hl; cases hl
        · rw [hp] at hf; cases hf
      refine ⟨by simp [countLog, hne], ?_, ?_, by simp [countSounds, countAllLogs]⟩
      · constructor
        · intro h
          exact Or.inl h
        · rintro (h | h)
          · exact h
          · subst h
            rcases hpre with hp | hp
            · rw [hp] at hl; cases hl
            · exact hp
      · rcases hpre with hp | hp
        · exact Or.inl (setIsLive_lookup_none un2 un b st.session_lurkers hp)
        · exact Or.inr hp
  | none =>
      by_cases hk : pyIn un2 st.known_lurkers = true
      · have hstep : lurkStep now st un2 b
            = ⟨{ st with session_lurkers := st.session_lurkers ++ [(un2, ⟨now, b⟩)] },
               [], ⟨un2, now, b⟩⟩ := by
          simp [lurkStep, hl, hk]
        rw [hstep]
        have hne : ¬ (pyIn un st.known_lurkers = false ∧ un2 = un) := by
          rintro ⟨hf, he⟩
          subst he
          rw [hk] at hf
          cases hf
        refine ⟨by simp [countLog, hne], ?_, ?_, by simp [countSounds, countAllLogs]⟩
        · constructor
          · intro h
            exact Or.inl h
          · rintro (h | h)
            · exact h
            · subst h
              exact hk
        · by_cases he : un2 = un
          · subst he
            exact Or.inr hk
          · rcases hpre with hp | hp
            · refine Or.inl ?_
              rw [lookup_append_none _ _ un hp]
              simp only [List.lookup]
              have hb : (un == un2) = false := by
                simp only [beq_eq_false_iff_ne]
                exact fun e => he e.symm
              rw [hb]
            · exact Or.inr hp
      · have hkf : pyIn un2 st.known_lurkers = false := by
          cases hx : pyIn un2 st.known_lurkers with
          | true => exact absurd hx hk
          | false => rfl
        by_cases hc : now - st.last_sound_time ≥ st.sound_cooldown_seconds
        · have hstep : lurkStep now st un2 b
              = ⟨{ st with
                    session_lurkers := st.session_lurkers ++ [(un2, ⟨now, b⟩)]
                    known_lurkers := st.known_lurkers ++ [un2]
                    last_sound_time := now },
                 [LurkAction.logLurker un2, LurkAction.playLurkSound], ⟨un2, now, b⟩⟩ := by
            simp [lurkStep, hl, hkf, playLurkNotify, hc]
          rw [hstep]
          refine ⟨?_, ?_, ?_, by simp [countSounds, countAllLogs]⟩
          · by_cases he : un2 = un
            · subst he
              rw [if_pos ⟨hkf, rfl⟩]
              simp [countLog]
            · rw [if_neg (by rintro ⟨_, h⟩; exact he h)]
              simp [countLog, he]
          · rw [pyIn_append_one]
            simp only [Bool.or_eq_true, beq_iff_eq]
            constructor
            · rintro (h | h)
              · exact Or.inl h
              · exact Or.inr h.symm
            · rintro (h | h)
              · exact Or.inl h
              · exact Or.inr h.symm
          · by_cases he : un2 = un
            · subst he
              refine Or.inr ?_
              rw [pyIn_append_one]
              simp
            · rcases hpre with hp | hp
              · refine Or.inl ?_
                rw [lookup_append_none _ _ un hp]
                simp only [List.lookup]
                have hb : (un == un2) = false := by
                  simp only [beq_eq_false_iff_ne]
                  exact fun e => he e.symm
                rw [hb]
              · refine Or.inr ?_
                rw [pyIn_append_one, hp]
                rfl
        · have hstep : lurkStep now st un2 b
              = ⟨{ st with
                    session_lurkers := st.session_lurkers ++ [(un2, ⟨now, b⟩)]
                    known_lurkers := st.known_lurkers ++ [un2] },
                 [LurkAction.logLurker un2], ⟨un2, now, b⟩⟩ := by
            simp [lurkStep, hl, hkf, playLurkNotify, hc]
          rw [hstep]
          refine ⟨?_, ?_, ?_, by simp [countSounds, countAllLogs]⟩
          · by_cases he : un2 = un
            · subst he
              rw [if_pos ⟨hkf, rfl⟩]
              simp [countLog]
            · rw [if_neg (by rintro ⟨_, h⟩; exact he h)]
              simp [countLog, he]
          · rw [pyIn_append_one]
            simp only [Bool.or_eq_true, beq_iff_eq]
            constructor
            · rintro (h | h)
              · exact Or.inl h
              · exact Or.inr h.symm
            · rintro (h | h)
              · exact Or.inl h
              · exact Or.inr h.symm
          · by_cases he : un2 = un
            · subst he
              refine Or.inr ?_
              rw [pyIn_append_one]
              simp
            · rcases hpre with hp | hp
              · refine Or.inl ?_
                rw [lookup_append_none _ _ un hp]
                simp only [List.lookup]
                have hb : (un == un2) = false := by
                  simp only [beq_eq_false_iff_ne]
                  exact fun e => he e.symm
                rw [hb]
              · refine Or.inr ?_
                rw [pyIn_append_one, hp]
                rfl

theorem doLurkerRefresh_c9 (now : Int) (cs : List (String × Bool)) (st : LurkerState)
    (un : String)
    (hpre : st.session_lurkers.lookup un = none ∨ pyIn un st.known_lurkers = true) :
    (countLog un (doLurkerRefresh now st cs).acts
        = if pyIn un st.known_lurkers = false ∧ appearsIn un cs = true then 1 else 0) ∧
    (pyIn un (doLurkerRefresh now st cs).st.known_lurkers = true
        ↔ (pyIn un st.known_lurkers = true ∨ appearsIn un cs = true)) ∧
    ((doLurkerRefresh now st cs).st.session_lurkers.lookup un = none
        ∨ pyIn un (doLurkerRefresh now st cs).st.known_lurkers = true) ∧
    countSounds (doLurkerRefresh now st cs).acts
        ≤ countAllLogs (doLurkerRefresh now st cs).acts := by
  induction cs generalizing st with
  | nil =>
      refine ⟨?_, ?_, hpre, le_refl _⟩
      · simp [doLurkerRefresh, appearsIn, countLog]
      · simp [doLurkerRefresh, appearsIn]
  | cons p rest ih =>
      obtain ⟨un2, b⟩ := p
      have hacts : (doLurkerRefresh now st ((un2, b) :: rest)).acts
          = (lurkStep now st un2 b).acts
            ++ (doLurkerRefresh now (lurkStep now st un2 b).st rest).acts := by
        simp only [doLurkerRefresh]
        by_cases hcl : now - (lurkStep now st un2 b).entry.joined ≥ 300
        · rw [if_pos hcl]
        · rw [if_neg hcl]
      have hst2 : (doLurkerRefresh now st ((un2, b) :: rest)).st
          = (doLurkerRefresh now (lurkStep now st un2 b).st rest).st := by
        simp only [doLurkerRefresh]
        by_cases hcl : now - (lurkStep now st un2 b).entry.joined ≥ 300
        · rw [if_pos hcl]
        · rw [if_neg hcl]
      obtain ⟨s1, s2, s3, s4⟩ := lurkStep_c9 now st un2 b un hpre
      obtain ⟨i1, i2, i3, i4⟩ := ih (lurkStep now st un2 b).st s3
      refine ⟨?_, ?_, ?_, ?_⟩
      · rw [hacts, countLog_append, s1, i1, appearsIn_cons]
        by_cases hA : pyIn un st.known_lurkers = true
        · have hA2 : pyIn un (lurkStep now st un2 b).st.known_lurkers = true :=
            s2.mpr (Or.inl hA)
          rw [if_neg (by rintro ⟨hf, _⟩; rw [hA] at hf; cases hf),
              if_neg (by rintro ⟨hf, _⟩; rw [hA2] at hf; cases hf),
              if_neg (by rintro ⟨hf, _⟩; rw [hA] at hf; cases hf)]
        · have hAf : pyIn un st.known_lurkers = false := by
            cases hx : pyIn un st.known_lurkers with
            | true => exact absurd hx hA
            | false => rfl
          by_cases hB : un2 = un
          · have hB2 : pyIn un (lurkStep now st un2 b).st.known_lurkers = true :=
              s2.mpr (Or.inr hB)
            have hbq : (un2 == un) = true := by
              simp [beq_iff_eq, hB]
            rw [if_pos ⟨hAf, hB⟩,
                if_neg (by rintro ⟨hf, _⟩; rw [hB2] at hf; cases hf),
                if_pos ⟨hAf, by rw [hbq]; rfl⟩]
          · have hbq : (un2 == un) = false := by
              simp [beq_eq_false_iff_ne, hB]
            have hB2f : pyIn un (lurkStep now st un2 b).st.known_lurkers = false := by
              cases hx : pyIn un (lurkStep now st un2 b).st.known_lurkers with
              | true =>
                  rcases s2.mp hx with h | h
                  · rw [hAf] at h; cases h
                  · exact absurd h hB
              | false => rfl
            rw [if_neg (by rintro ⟨_, hf⟩; exact hB hf),
                hB2f, hAf, hbq]
            simp
      · rw [hst2, i2, s2]
        constructor
        · rintro ((h | h) | h)
          · exact Or.inl h
          · refine Or.inr ?_
            rw [appearsIn_cons]
            simp [beq_iff_eq, h]
          · refine Or.inr ?_
            rw [appearsIn_cons, h]
            simp
        · rintro (h | h)
          · exact Or.inl (Or.inl h)
          · rw [appearsIn_cons] at h
            rcases (by simpa using h : (un2 == un) = true ∨ appearsIn un rest = true)
              with h2 | h2
            · exact Or.inl (Or.inr (by simpa using h2))
            · exact Or.inr h2
      · rw [hst2]
        exact i3
      · rw [hacts, countSounds_append, countAllLogs_append]
        exact Nat.add_le_add s4 i4

theorem appearsInRun_cons (un : String) (now : Int) (cs : List (String × Bool))
    (rest : List (Int × List (String × Bool))) :
    appearsInRun un ((now, cs) :: rest) = (appearsIn un cs || appearsInRun un rest) := by
  simp [appearsInRun]

/-- C9 (amended): across any process lifetime of presence-refresh ticks, the
first-sighting notification call — the `log_lurker` entry — is made exactly once per
identity: once for an identity unknown at process start that appears in some tick, and
never for an identity already known or one that never appears; later appearances never
re-trigger it.  The audible cue is NOT guaranteed once per identity: it is emitted at
most as often as first sightings are logged, because `play_lurk_notify` skips the cue
whenever another notification sound played within the shared cooldown window.
The hypothesis says the identity is not already in the session registry without being
known — true of every state reachable from process start, where the two are populated
together. -/
theorem C9_amended_first_sighting (st : LurkerState)
    (ticks : List (Int × List (String × Bool))) (un : String)
    (hpre : st.session_lurkers.lookup un = none ∨ pyIn un st.known_lurkers = true) :
    (countLog un (runRefreshes st ticks).2
        = if pyIn un st.known_lurkers = false ∧ appearsInRun un ticks = true
          then 1 else 0) ∧
    countSounds (runRefreshes st ticks).2 ≤ countAllLogs (runRefreshes st ticks).2 := by
  induction ticks generalizing st with
  | nil => simp [runRefreshes, appearsInRun, countLog, countSounds, countAllLogs]
  | cons t rest ih =>
      obtain ⟨now, cs⟩ := t
      have hacts : (runRefreshes st ((now, cs) :: rest)).2
          = (doLurkerRefresh now st cs).acts
            ++ (runRefreshes (doLurkerRefresh now st cs).st rest).2 := rfl
      have hstr : (runRefreshes st ((now, cs) :: rest)).1
          = (runRefreshes (doLurkerRefresh now st cs).st rest).1 := rfl
      obtain ⟨r1, r2, r3, r4⟩ := doLurkerRefresh_c9 now cs st un hpre
      obtain ⟨j1, j2⟩ := ih (doLurkerRefresh now st cs).st r3
      refine ⟨?_, ?_⟩
      · rw [hacts, countLog_append, r1, j1, appearsInRun_cons]
        by_cases hA : pyIn un st.known_lurkers = true
        · have hA2 : pyIn un (doLurkerRefresh now st cs).st.known_lurkers = true :=
            r2.mpr (Or.inl hA)
          rw [if_neg (by rintro ⟨hf, _⟩; rw [hA] at hf; cases hf),
              if_neg (by rintro ⟨hf, _⟩; rw [hA2] at hf; cases hf),
              if_neg (by rintro ⟨hf, _⟩; rw [hA] at hf; cases hf)]
        · have hAf : pyIn un st.known_lurkers = false := by
            cases hx : pyIn un st.known_lurkers with
            | true => exact absurd hx hA
            | false => rfl
          by_cases hB : appearsIn un cs = true
          · have hB2 : pyIn un (doLurkerRefresh now st cs).st.known_lurkers = true :=
              r2.mpr (Or.inr hB)
            rw [if_pos ⟨hAf, hB⟩,
                if_neg (by rintro ⟨hf, _⟩; rw [hB2] at hf; cases hf),
                if_pos ⟨hAf, by rw [hB]; rfl⟩]
          · have hBf : appearsIn un cs = false := by
              cases hx : appearsIn un cs with
              | true => exact absurd hx hB
              | false => rfl
            have hB2f : pyIn un (doLurkerRefresh now st cs).st.known_lurkers = false := by
              cases hx : pyIn un (doLurkerRefresh now st cs).st.known_lurkers with
              | true =>
                  rcases r2.mp hx with h | h
                  · rw [hAf] at h; cases h
                  · rw [hBf] at h; cases h
              | false => rfl
            rw [if_neg (by rintro ⟨_, hf⟩; rw [hBf] at hf; cases hf),
                hB2f, hAf, hBf]
            simp
      · rw [hacts, countSounds_append, countAllLogs_append]
        exact Nat.add_le_add r4 j2

/-- C9: counterexample.  Two identities first sighted in the same refresh tick: both
get their log entry, but only the first gets the audible cue — the second is silenced
by the shared 5-second sound cooldown, and a later tick where it appears again
produces no actions at all.  So the claimed side-effect "a log entry plus an audible
cue, exactly once per identity" does not hold: the second identity never receives an
audible cue. -/
theorem C9_counterexample :
    (runRefreshes lurkSt0
        [(0, [("alice", false), ("bob", false)]), (400, [("bob", true)])]).2
      = [LurkAction.logLurker "alice", LurkAction.playLurkSound,
         LurkAction.logLurker "bob"] ∧
    countLog "bob" (runRefreshes lurkSt0
        [(0, [("alice", false), ("bob", false)]), (400, [("bob", true)])]).2 = 1 ∧
    countSounds (runRefreshes lurkSt0
        [(0, [("alice", false), ("bob", false)]), (400, [("bob", true)])]).2 = 1 := by
  decide

/-- Witness for C9 (amended) on a concrete two-tick lifetime. -/
theorem C9_amended_witness :
    (countLog "alice" (runRefreshes lurkSt0
        [(0, [("alice", false)]), (400, [("alice", true)])]).2
      = if pyIn "alice" lurkSt0.known_lurkers = false
           ∧ appearsInRun "alice" [(0, [("alice", false)]), (400, [("alice", true)])] = true
        then 1 else 0) ∧
    countSounds (runRefreshes lurkSt0
        [(0, [("alice", false)]), (400, [("alice", true)])]).2
      ≤ countAllLogs (runRefreshes lurkSt0
        [(0, [("alice", false)]), (400, [("alice", true)])]).2 :=
  C9_amended_first_sighting lurkSt0 [(0, [("alice", false)]), (400, [("alice", true)])]
    "alice" (Or.inl rfl)

/- ### C8 — malformed and out-of-range emote ranges are skipped individually -/

theorem hasKeyE_dictInsert_self (k v : List Char) (m : List (List Char × List Char)) :
    hasKeyE k (dictInsert k v m) = true := by
  induction m with
  | nil => simp [dictInsert, hasKeyE]
  | cons p rest ih =>
      obtain ⟨k2, v2⟩ := p
      by_cases h : k2 = k
      · simp [dictInsert, h, hasKeyE]
      · simp [dictInsert, h, hasKeyE, ih]

theorem hasKeyE_dictInsert_of (k k2 v : List Char) (m : List (List Char × List Char))
    (h : hasKeyE k m = true) : hasKeyE k (dictInsert k2 v m) = true := by
  induction m with
  | nil => simp [hasKeyE] at h
  | cons p rest ih =>
      obtain ⟨k3, v3⟩ := p
      simp only [hasKeyE, Bool.or_eq_true] at h
      by_cases h3 : k3 = k2
      · simp only [dictInsert, if_pos h3, hasKeyE, Bool.or_eq_true]
        exact h
      · simp only [dictInsert, if_neg h3, hasKeyE, Bool.or_eq_true]
        rcases h with h | h
        · exact Or.inl h
        · exact Or.inr (ih h)

theorem hasKeyE_processEntry (k : List Char) (msg e : List Char)
    (m : List (List Char × List Char)) (h : hasKeyE k m = true) :
    hasKeyE k (processEmoteEntry msg m e) = true := by
  unfold processEmoteEntry
  cases hp : emoteEntryParse msg e with
  | none => exact h
  | some kv => exact hasKeyE_dictInsert_of k kv.1 kv.2 m h

theorem hasKeyE_foldl (k : List Char) (msg : List Char) (l : List (List Char))
    (m : List (List Char × List Char)) (h : hasKeyE k m = true) :
    hasKeyE k (l.foldl (processEmoteEntry msg) m) = true := by
  induction l generalizing m with
  | nil => exact h
  | cons e rest ih =>
      simp only [List.foldl_cons]
      exact ih (processEmoteEntry msg m e) (hasKeyE_processEntry k msg e m h)

/-- C8: for every raw chat line carrying an emote descriptor, (a) the message body is
returned intact together with the parsed map whenever the line has a user and a body,
whatever the descriptor contains; (b) an entry whose range token is malformed or out
of range parses to nothing and leaves the map exactly as it was — it is skipped
individually, not fatal; and (c) every well-formed in-range entry of the descriptor
still contributes its span to the final emote map. -/
theorem C8_emote_range_guard (user msg ed entry : List Char)
    (hu : user ≠ []) (hm : msg ≠ []) :
    (privmsgBodyAndEmotes user msg ed = some (user, msg, parseEmotes msg ed)) ∧
    (∀ e2, emoteEntryParse msg e2 = none → ∀ m, processEmoteEntry msg m e2 = m) ∧
    (entry ∈ splitAll '/' ed → ed ≠ [] →
      ∀ k v, emoteEntryParse msg entry = some (k, v) →
        hasKeyE k (parseEmotes msg ed) = true) := by
  refine ⟨?_, ?_, ?_⟩
  · simp [privmsgBodyAndEmotes, hu, hm]
  · intro e2 hnone m
    simp [processEmoteEntry, hnone]
  · intro hmem hne k v hpe
    obtain ⟨l1, l2, hsplit⟩ := List.append_of_mem hmem
    unfold parseEmotes
    rw [if_neg hne, hsplit, List.foldl_append, List.foldl_cons]
    have hstep : processEmoteEntry msg (l1.foldl (processEmoteEntry msg) []) entry
        = dictInsert k v (l1.foldl (processEmoteEntry msg) []) := by
      simp [processEmoteEntry, hpe]
    rw [hstep]
    exact hasKeyE_foldl k msg l2 _ (hasKeyE_dictInsert_self k v _)

/-- Witness for C8, replaying the spec's round-trip and out-of-range examples on the
body `"Hello Kappa world"`: descriptor `"25:6-10"` contributes the span `"Kappa"`,
while the out-of-range entry `"25:6-99"` and the malformed entry `"25:x-10"` leave
any map untouched. -/
theorem C8_emote_range_witness :
    (privmsgBodyAndEmotes "someone".data "Hello Kappa world".data "25:6-10".data
      = some ("someone".data, "Hello Kappa world".data,
              parseEmotes "Hello Kappa world".data "25:6-10".data)) ∧
    (∀ e2, emoteEntryParse "Hello Kappa world".data e2 = none →
      ∀ m, processEmoteEntry "Hello Kappa world".data m e2 = m) ∧
    ("25:6-10".data ∈ splitAll '/' "25:6-10".data → "25:6-10".data ≠ [] →
      ∀ k v, emoteEntryParse "Hello Kappa world".data "25:6-10".data = some (k, v) →
        hasKeyE k (parseEmotes "Hello Kappa world".data "25:6-10".data) = true) :=
  C8_emote_range_guard "someone".data "Hello Kappa world".data "25:6-10".data
    "25:6-10".data (by decide) (by decide)

/- ### C10 — send anti-bounce guard -/

/-- C10: a second invocation of the send-message operation less than 1.5 seconds after
the previous one is silently ignored before anything else runs: the state — including
the pending input text and the recorded last-send time — is unchanged, and no action
at all (network write, local echo, warning or error dialog) is performed. -/
theorem C10_send_bounce_guard (channel : String) (st : SendState) (now t : ℚ)
    (writeOk : Bool) (hl : st.last_send_time = some t) (hfast : now - t < 3 / 2) :
    sendChatMessage channel st now writeOk = (st, []) := by
  simp [sendChatMessage, hl, hfast]

/-- Witness for C10: a second call 1.2 seconds after the first is dropped with the
typed-but-unsent input text intact. -/
theorem C10_send_bounce_witness :
    sendChatMessage "mychannel"
      { last_send_time := some 10
        chat_input := "hello there"
        chat_socket := true
        chat_username := "bob" } (56 / 5) true
      = ({ last_send_time := some 10
           chat_input := "hello there"
           chat_socket := true
           chat_username := "bob" }, []) :=
  C10_send_bounce_guard "mychannel" _ (56 / 5) 10 true rfl (by norm_num)
